import Mathlib

/-!
Shallow embedding of `internal/job/job.go` from criteo/data-aggregation-api.

The build pipeline converts an inventory of device records into per-device
configuration artifacts:
  * `precompute` builds one `device.Device` model per inventory record
    (`device.NewDevice`), storing `nil` as a failure marker and joining all
    per-device errors (`errors.Join`);
  * `compute` fans one task per non-nil model out (`Generateconfigs`),
    counting successes in a `uint32` and raising a shared failure flag;
  * `RunBuild` sequences fetch, precompute (with the
    `AllDevicesMustBuild` policy gate) and compute;
  * `StartBuildLoop` reruns `RunBuild`, publishing the mapping to the
    downstream device repository (`deviceRepo.Set`) only on success, and
    waits on an interval timer or an external trigger channel.

External collaborators (asset fetching, `NewDevice`, `Generateconfigs`,
config) are modelled as data carried by the inputs: each `DeviceRecord`
carries the result its `NewDevice` call would produce, and each `Device`
carries the result of its `Generateconfigs` call.  Channel sends on
`reportCh` are modelled as an accumulated list of messages; the concurrent
fan-out of `compute` is modelled by its deterministic aggregate (all tasks
join at the `WaitGroup` barrier; the counter increments and the flag writes
commute), with the per-task report messages collected in dispatch order as
one representative interleaving.
-/

/-- Severity of a report message (`report.Error`, `report.Warning`). -/
inductive Severity where
  | Error
  | Warning
deriving DecidableEq, Repr

/-- Message type of a report message (`report.PrecomputeMessage`,
`report.ComputeMessage`). -/
inductive MessageType where
  | PrecomputeMessage
  | ComputeMessage
deriving DecidableEq, Repr

/-- One `report.Message` value: type, severity and text. -/
structure Message where
  type : MessageType
  severity : Severity
  text : String
deriving DecidableEq, Repr

/-- A `device.Device` model.  Its only behaviour used by this package is
`Generateconfigs`, modelled by the error that call would return
(`none` = success). -/
structure Device where
  generateconfigsResult : Option String
deriving DecidableEq, Repr

deriving instance DecidableEq for Except

/-- One entry of `ingestorRepo.DeviceInventory`, together with the result
`device.NewDevice(dev, devicesData)` would produce for it. -/
structure DeviceRecord where
  hostname : String
  newDeviceResult : Except String Device
deriving DecidableEq, Repr

/-- The Go value `map[string]*device.Device`, as an insertion-ordered
association list; a `none` value is a stored `nil` pointer
(the precompute failure marker). -/
abbrev GoMap := List (String × Option Device)

/-- Go map assignment `m[k] = v`: overwrite the existing entry or append. -/
def mapInsert (m : GoMap) (k : String) (v : Option Device) : GoMap :=
  if m.any (fun p => p.1 = k) then
    m.map (fun p => if p.1 = k then (k, v) else p)
  else
    m ++ [(k, v)]

/-- Go map read `m[k]` in this package's use `devices[dev.Hostname]`:
a missing key and a stored `nil` pointer both read as `nil` (`none`). -/
def mapGet (m : GoMap) (k : String) : Option Device :=
  match m.find? (fun p => p.1 = k) with
  | some p => p.2
  | none => none

/-- Presence-aware lookup: `some v` when key `k` is present with stored
value `v` (where `v = none` is a stored `nil`), `none` when absent. -/
def lookupEntry (m : GoMap) (k : String) : Option (Option Device) :=
  (m.find? (fun p => p.1 = k)).map (fun p => p.2)

/-- Accumulated state of the `precompute` loop: the `devices` map, the
`errors.Join` aggregate (a list of the joined causes, `[]` = nil error),
and the messages sent on `reportCh`. -/
structure PrecomputeOut where
  devices : GoMap
  errs : List String
  messages : List Message
deriving DecidableEq, Repr

/-- One iteration of the `for _, dev := range ingestorRepo.DeviceInventory`
loop of `precompute`. -/
def precomputeStep (acc : PrecomputeOut) (dev : DeviceRecord) : PrecomputeOut :=
  match dev.newDeviceResult with
  | .error err =>
      { devices := mapInsert acc.devices dev.hostname none
        errs := acc.errs ++ [err]
        messages := acc.messages ++ [⟨.PrecomputeMessage, .Error, err⟩] }
  | .ok newDevice =>
      { acc with devices := mapInsert acc.devices dev.hostname (some newDevice) }

/-- The `precompute` function of `job.go`: builds the hostname → model map,
recording a `nil` marker, an `Error` report message and a joined error for
every device whose `NewDevice` call fails. -/
def precompute (deviceInventory : List DeviceRecord) : PrecomputeOut :=
  deviceInventory.foldl precomputeStep ⟨[], [], []⟩

/-- The `uint32` width. -/
def U32 : Nat := 4294967296

/-- `builtCount.Add(1)` on the `atomic.Uint32` counter: wraps at `2^32`. -/
def uint32Add1 (c : Nat) : Nat := (c + 1) % U32

/-- Accumulated state of the `compute` loop: the `uint32` success counter,
the shared failure flag, the messages sent on `reportCh`, and the number
of goroutines dispatched (`wg.Add(1)` calls). -/
structure ComputeOut where
  builtCount : Nat
  failed : Bool
  messages : List Message
  dispatched : Nat
deriving DecidableEq, Repr

/-- One iteration of the `for _, dev := range ingestorRepo.DeviceInventory`
loop of `compute`: skip (with a `Warning`) devices whose map entry is nil,
otherwise dispatch a `Generateconfigs` task whose failure raises the flag
and emits an `Error` message, and whose success increments the counter. -/
def computeStep (devices : GoMap) (acc : ComputeOut) (dev : DeviceRecord) : ComputeOut :=
  match mapGet devices dev.hostname with
  | none =>
      { acc with messages := acc.messages ++
          [⟨.ComputeMessage, .Warning, "device " ++ dev.hostname ++ " has no configuration"⟩] }
  | some d =>
      match d.generateconfigsResult with
      | some err =>
          { acc with
            failed := true
            messages := acc.messages ++ [⟨.PrecomputeMessage, .Error, err⟩]
            dispatched := acc.dispatched + 1 }
      | none =>
          { acc with
            builtCount := uint32Add1 acc.builtCount
            dispatched := acc.dispatched + 1 }

/-- The `compute` function of `job.go`, as its deterministic aggregate after
the `wg.Wait()` barrier. -/
def compute (deviceInventory : List DeviceRecord) (devices : GoMap) : ComputeOut :=
  deviceInventory.foldl (computeStep devices) ⟨0, false, [], 0⟩

/-- The error value `compute` returns alongside the counter:
`errors.New("OpenConfig conversion failed")` iff the flag was raised. -/
def computeError (out : ComputeOut) : Option String :=
  if out.failed then some "OpenConfig conversion failed" else none

/-- `report.Stats` as far as this package writes it; the wall-clock duration
fields are real-time and outside the model. -/
structure Stats where
  builtDevicesCount : Nat := 0
deriving DecidableEq, Repr

/-- The triple `RunBuild` returns, plus the messages it sent on `reportCh`
(`nil` results are `none`). -/
structure RunBuildOut where
  devices : Option GoMap
  stats : Stats
  err : Option String
  messages : List Message
deriving DecidableEq, Repr

/-- The `RunBuild` function of `job.go`: fetch (whose outcome is the
`fetchResult` input), precompute, the `AllDevicesMustBuild` policy gate,
then compute.  `allDevicesMustBuild` is `config.Cfg.Build.AllDevicesMustBuild`. -/
def RunBuild (fetchResult : Except String (List DeviceRecord))
    (allDevicesMustBuild : Bool) : RunBuildOut :=
  match fetchResult with
  | .error e => ⟨none, {}, some e, []⟩
  | .ok deviceInventory =>
      let pre := precompute deviceInventory
      if !pre.errs.isEmpty && allDevicesMustBuild then
        ⟨none, {}, some "failed: all devices must build", pre.messages⟩
      else
        let warnMsgs : List Message :=
          if pre.errs.isEmpty then []
          else [⟨.ComputeMessage, .Warning, "build failed for some devices"⟩]
        let comp := compute deviceInventory pre.devices
        let stats : Stats := { builtDevicesCount := comp.builtCount }
        match computeError comp with
        | some ce => ⟨none, stats, some ce, pre.messages ++ warnMsgs ++ comp.messages⟩
        | none => ⟨some pre.devices, stats, none, pre.messages ++ warnMsgs ++ comp.messages⟩

/-- Report status (`report.InProgress`, `report.Success`, `report.Failed`;
`Idle` is the initial state before the first cycle). -/
inductive ReportStatus where
  | Idle
  | InProgress
  | Success
  | Failed
deriving DecidableEq, Repr

/-- State the `StartBuildLoop` supervisor owns across cycles: the device
repository contents (what `deviceRepo.Set` last installed; `none` means no
set was ever published), the report status, the failure/success metric
counters, the built-devices gauge, and how many cycles ran to completion. -/
structure SupervisorState where
  published : Option GoMap
  status : ReportStatus
  buildFailedCount : Nat
  buildSuccessfulCount : Nat
  builtDevicesGauge : Nat
  cyclesCompleted : Nat
deriving DecidableEq, Repr

/-- Per-cycle inputs of the loop body: the outcome of `FetchAssets` and the
`AllDevicesMustBuild` policy flag read during this cycle. -/
structure CycleInput where
  fetchResult : Except String (List DeviceRecord)
  allDevicesMustBuild : Bool
deriving DecidableEq, Repr

/-- Result of one loop body: the new supervisor state and the list of
`deviceRepo.Set` invocations the body performed (each element one call,
carrying the full argument). -/
structure CycleOut where
  state : SupervisorState
  setCalls : List (Option GoMap)
deriving DecidableEq, Repr

/-- One iteration of `StartBuildLoop`'s body, up to the inter-cycle wait:
run `RunBuild`; on error bump the failure metric and mark the report
`Failed`, leaving the repository untouched; on success call
`deviceRepo.Set(devs)`, bump the success metric and gauge, and mark the
report `Success`. -/
def runCycle (st : SupervisorState) (input : CycleInput) : CycleOut :=
  let r := RunBuild input.fetchResult input.allDevicesMustBuild
  match r.err with
  | some _ =>
      ⟨{ st with
          status := .Failed
          buildFailedCount := st.buildFailedCount + 1
          cyclesCompleted := st.cyclesCompleted + 1 }, []⟩
  | none =>
      ⟨{ st with
          published := r.devices
          status := .Success
          buildSuccessfulCount := st.buildSuccessfulCount + 1
          builtDevicesGauge := r.stats.builtDevicesCount
          cyclesCompleted := st.cyclesCompleted + 1 }, [r.devices]⟩

/-- Outcome of the `select` at the bottom of the loop: the interval timer
fired, a value arrived on `triggerNewBuild`, or `triggerNewBuild` was
observed closed (`ok == false`). -/
inductive WaitEvent where
  | intervalElapsed
  | triggerSignal
  | triggerClosed
deriving DecidableEq, Repr

/-- Supervisor state after `n` further completed cycles starting from state
`st` at cycle index `k`, where `inputs j` is the environment of cycle `j`. -/
def loopState (inputs : Nat → CycleInput) (st : SupervisorState) (k : Nat) :
    Nat → SupervisorState
  | 0 => st
  | n + 1 => loopState inputs (runCycle st (inputs k)).state (k + 1) n

/-- The `StartBuildLoop` control flow as a fuel-indexed run: starting at
cycle index `k` in state `st`, run the body, then resolve the wait with
`events k`; `triggerClosed` returns from the loop, the other two outcomes
continue with cycle `k + 1`.  Result `some st'` means the loop returned
within `fuel` iterations in state `st'`; `none` means it was still running. -/
def loopRun (inputs : Nat → CycleInput) (events : Nat → WaitEvent)
    (st : SupervisorState) (k : Nat) : Nat → Option SupervisorState
  | 0 => none
  | fuel + 1 =>
      let st' := (runCycle st (inputs k)).state
      match events k with
      | .triggerClosed => some st'
      | .intervalElapsed => loopRun inputs events st' (k + 1) fuel
      | .triggerSignal => loopRun inputs events st' (k + 1) fuel

/-! ### Specification vocabulary

Counting functions used to state the claims, defined over the same inputs
the embedded functions receive. -/

/-- The map entry `precompute` stores for a device: the built model on
success, the `nil` failure marker on failure. -/
def devEntry (dev : DeviceRecord) : Option Device :=
  match dev.newDeviceResult with
  | .ok d => some d
  | .error _ => none

/-- The causes of the precompute failures of an inventory, in order. -/
def precomputeErrList (l : List DeviceRecord) : List String :=
  l.filterMap (fun dev =>
    match dev.newDeviceResult with
    | .error e => some e
    | .ok _ => none)

/-- The models of the devices `compute` dispatches a task for: one per
inventory entry whose map read is non-nil. -/
def dispatchedModels (l : List DeviceRecord) (devices : GoMap) : List Device :=
  l.filterMap (fun dev => mapGet devices dev.hostname)

/-- Number of dispatched tasks whose `Generateconfigs` call succeeds. -/
def taskSuccessCount (l : List DeviceRecord) (devices : GoMap) : Nat :=
  ((dispatchedModels l devices).filter (fun d => d.generateconfigsResult.isNone)).length

/-- Whether at least one dispatched task fails. -/
def anyTaskFailed (l : List DeviceRecord) (devices : GoMap) : Bool :=
  (dispatchedModels l devices).any (fun d => d.generateconfigsResult.isSome)

/-- Number of inventory entries whose map read is nil (failure marker or
absent): the devices `compute` skips. -/
def markedCount (l : List DeviceRecord) (devices : GoMap) : Nat :=
  (l.filter (fun dev => (mapGet devices dev.hostname).isNone)).length

/-- The report message one `compute` iteration sends for a device, if any:
a skip warning for a nil entry, the task's error message for a failing
task, nothing for a succeeding task. -/
def computeMsgOf (devices : GoMap) (dev : DeviceRecord) : Option Message :=
  match mapGet devices dev.hostname with
  | none =>
      some ⟨.ComputeMessage, .Warning, "device " ++ dev.hostname ++ " has no configuration"⟩
  | some d =>
      match d.generateconfigsResult with
      | some err => some ⟨.PrecomputeMessage, .Error, err⟩
      | none => none

/-- Number of inventory devices whose `NewDevice` call succeeds — the
devices that get a model and can be dispatched. -/
def precomputeOkCount (inv : List DeviceRecord) : Nat :=
  (inv.filterMap devEntry).length

/-! ### Association-list map lemmas -/

theorem lookupEntry_nil (k : String) : lookupEntry [] k = none := rfl

theorem lookupEntry_cons (p : String × Option Device) (m : GoMap) (k : String) :
    lookupEntry (p :: m) k = if p.1 = k then some p.2 else lookupEntry m k := by
  by_cases h : p.1 = k <;> simp [lookupEntry, List.find?, h]

theorem lookupEntry_eq_none_iff (m : GoMap) (k : String) :
    lookupEntry m k = none ↔ ∀ p ∈ m, p.1 ≠ k := by
  induction m with
  | nil => simp [lookupEntry_nil]
  | cons p rest ih =>
      rw [lookupEntry_cons]
      by_cases hp : p.1 = k
      · simp [hp]
      · simp [hp, ih]

theorem lookupEntry_overwrite_hit (m : GoMap) (k : String) (v : Option Device)
    (h : ∃ p ∈ m, p.1 = k) :
    lookupEntry (m.map (fun p => if p.1 = k then (k, v) else p)) k = some v := by
  induction m with
  | nil => simp at h
  | cons p rest ih =>
      by_cases hp : p.1 = k
      · simp [hp, lookupEntry_cons]
      · obtain ⟨q, hq, hqk⟩ := h
        rcases List.mem_cons.mp hq with rfl | hmem
        · exact absurd hqk hp
        · simp only [List.map_cons, if_neg hp, lookupEntry_cons, if_neg hp]
          exact ih ⟨q, hmem, hqk⟩

theorem lookupEntry_overwrite_miss (m : GoMap) (k' k : String) (v : Option Device)
    (h : k' ≠ k) :
    lookupEntry (m.map (fun p => if p.1 = k' then (k', v) else p)) k = lookupEntry m k := by
  induction m with
  | nil => rfl
  | cons p rest ih =>
      by_cases hp : p.1 = k'
      · simp only [List.map_cons, if_pos hp, lookupEntry_cons, if_neg h, if_neg (hp ▸ h : ¬p.1 = k)]
        exact ih
      · simp only [List.map_cons, if_neg hp, lookupEntry_cons]
        by_cases hk : p.1 = k
        · simp [hk]
        · simp [hk, ih]

theorem lookupEntry_append_single (m : GoMap) (k' k : String) (v : Option Device) :
    lookupEntry (m ++ [(k', v)]) k =
      match lookupEntry m k with
      | some w => some w
      | none => if k' = k then some v else none := by
  induction m with
  | nil => by_cases h : k' = k <;> simp [lookupEntry_cons, lookupEntry_nil, h]
  | cons p rest ih =>
      by_cases hp : p.1 = k
      · simp [lookupEntry_cons, hp]
      · simp only [List.cons_append, lookupEntry_cons, if_neg hp, ih]

theorem lookupEntry_insert_self (m : GoMap) (k : String) (v : Option Device) :
    lookupEntry (mapInsert m k v) k = some v := by
  unfold mapInsert
  split
  · next hany =>
    simp only [List.any_eq_true, decide_eq_true_eq] at hany
    exact lookupEntry_overwrite_hit m k v hany
  · next hany =>
    simp only [List.any_eq_true, decide_eq_true_eq] at hany
    push_neg at hany
    rw [lookupEntry_append_single, (lookupEntry_eq_none_iff m k).mpr hany]
    simp

theorem lookupEntry_insert_ne (m : GoMap) (k' k : String) (v : Option Device)
    (h : k' ≠ k) : lookupEntry (mapInsert m k' v) k = lookupEntry m k := by
  unfold mapInsert
  split
  · exact lookupEntry_overwrite_miss m k' k v h
  · rw [lookupEntry_append_single]
    cases hm : lookupEntry m k <;> simp [h]

theorem length_insert_fresh (m : GoMap) (k : String) (v : Option Device)
    (h : lookupEntry m k = none) : (mapInsert m k v).length = m.length + 1 := by
  unfold mapInsert
  split
  · next hany =>
    exfalso
    simp only [List.any_eq_true, decide_eq_true_eq] at hany
    obtain ⟨p, hp, hpk⟩ := hany
    exact (lookupEntry_eq_none_iff m k).mp h p hp hpk
  · simp

theorem mapGet_eq_join (m : GoMap) (k : String) :
    mapGet m k = (lookupEntry m k).join := by
  unfold mapGet lookupEntry
  cases m.find? (fun p => decide (p.1 = k)) <;> rfl

/-! ### Characterization of `precompute` -/

theorem precomputeStep_devices (acc : PrecomputeOut) (dev : DeviceRecord) :
    (precomputeStep acc dev).devices = mapInsert acc.devices dev.hostname (devEntry dev) := by
  unfold precomputeStep devEntry
  cases dev.newDeviceResult <;> rfl

theorem precompute_foldl_errs (l : List DeviceRecord) (acc : PrecomputeOut) :
    (List.foldl precomputeStep acc l).errs = acc.errs ++ precomputeErrList l := by
  induction l generalizing acc with
  | nil => simp [precomputeErrList]
  | cons dev rest ih =>
      rw [List.foldl_cons, ih]
      cases h : dev.newDeviceResult <;>
        simp [precomputeStep, precomputeErrList, List.filterMap_cons, h]

theorem precompute_foldl_messages (l : List DeviceRecord) (acc : PrecomputeOut) :
    (List.foldl precomputeStep acc l).messages =
      acc.messages ++ (precomputeErrList l).map
        (fun e => ⟨.PrecomputeMessage, .Error, e⟩) := by
  induction l generalizing acc with
  | nil => simp [precomputeErrList]
  | cons dev rest ih =>
      rw [List.foldl_cons, ih]
      cases h : dev.newDeviceResult <;>
        simp [precomputeStep, precomputeErrList, List.filterMap_cons, h]

theorem precompute_foldl_lookup_frame (l : List DeviceRecord) (acc : PrecomputeOut)
    (k : String) (h : ∀ dev ∈ l, dev.hostname ≠ k) :
    lookupEntry (List.foldl precomputeStep acc l).devices k = lookupEntry acc.devices k := by
  induction l generalizing acc with
  | nil => rfl
  | cons dev rest ih =>
      rw [List.foldl_cons, ih _ (fun d hd => h d (List.mem_cons_of_mem dev hd))]
      rw [precomputeStep_devices]
      exact lookupEntry_insert_ne _ _ _ _ (h dev (List.mem_cons_self dev rest))

theorem precompute_foldl_lookup_mem (l : List DeviceRecord) (acc : PrecomputeOut)
    (dev : DeviceRecord) (hmem : dev ∈ l)
    (hnodup : (l.map DeviceRecord.hostname).Nodup) :
    lookupEntry (List.foldl precomputeStep acc l).devices dev.hostname
      = some (devEntry dev) := by
  induction l generalizing acc with
  | nil => simp at hmem
  | cons a rest ih =>
      rw [List.map_cons, List.nodup_cons] at hnodup
      rcases List.mem_cons.mp hmem with rfl | hmem'
      · rw [List.foldl_cons]
        rw [precompute_foldl_lookup_frame rest _ dev.hostname
          (fun d hd hc => hnodup.1 (hc ▸ List.mem_map_of_mem DeviceRecord.hostname hd))]
        rw [precomputeStep_devices]
        exact lookupEntry_insert_self _ _ _
      · rw [List.foldl_cons]
        exact ih _ hmem' hnodup.2

theorem precompute_foldl_length (l : List DeviceRecord) (acc : PrecomputeOut)
    (hnodup : (l.map DeviceRecord.hostname).Nodup)
    (hfresh : ∀ dev ∈ l, lookupEntry acc.devices dev.hostname = none) :
    (List.foldl precomputeStep acc l).devices.length = acc.devices.length + l.length := by
  induction l generalizing acc with
  | nil => simp
  | cons a rest ih =>
      rw [List.map_cons, List.nodup_cons] at hnodup
      rw [List.foldl_cons]
      have hstep : (precomputeStep acc a).devices.length = acc.devices.length + 1 := by
        rw [precomputeStep_devices]
        exact length_insert_fresh _ _ _ (hfresh a (List.mem_cons_self a rest))
      have hfresh' : ∀ dev ∈ rest, lookupEntry (precomputeStep acc a).devices dev.hostname = none := by
        intro dev hd
        rw [precomputeStep_devices, lookupEntry_insert_ne]
        · exact hfresh dev (List.mem_cons_of_mem a hd)
        · intro hc
          exact hnodup.1 (hc ▸ List.mem_map_of_mem DeviceRecord.hostname hd)
      rw [ih _ hnodup.2 hfresh', hstep, List.length_cons]
      omega

theorem precompute_errs (inv : List DeviceRecord) :
    (precompute inv).errs = precomputeErrList inv := by
  rw [precompute, precompute_foldl_errs]
  rfl

theorem precompute_messages_eq (inv : List DeviceRecord) :
    (precompute inv).messages =
      (precomputeErrList inv).map (fun e => ⟨.PrecomputeMessage, .Error, e⟩) := by
  rw [precompute, precompute_foldl_messages]
  rfl

theorem precompute_lookup (inv : List DeviceRecord) (dev : DeviceRecord)
    (hmem : dev ∈ inv) (hnodup : (inv.map DeviceRecord.hostname).Nodup) :
    lookupEntry (precompute inv).devices dev.hostname = some (devEntry dev) :=
  precompute_foldl_lookup_mem inv _ dev hmem hnodup

theorem precompute_mapGet (inv : List DeviceRecord) (dev : DeviceRecord)
    (hmem : dev ∈ inv) (hnodup : (inv.map DeviceRecord.hostname).Nodup) :
    mapGet (precompute inv).devices dev.hostname = devEntry dev := by
  rw [mapGet_eq_join, precompute_lookup inv dev hmem hnodup]
  rfl

theorem precompute_length (inv : List DeviceRecord)
    (hnodup : (inv.map DeviceRecord.hostname).Nodup) :
    (precompute inv).devices.length = inv.length := by
  rw [precompute, precompute_foldl_length inv _ hnodup
    (fun dev _ => lookupEntry_nil dev.hostname)]
  simp

/-! ### Characterization of `compute` -/

theorem compute_foldl_dispatched (devices : GoMap) (l : List DeviceRecord)
    (acc : ComputeOut) :
    (List.foldl (computeStep devices) acc l).dispatched
      = acc.dispatched + (dispatchedModels l devices).length := by
  induction l generalizing acc with
  | nil => simp [dispatchedModels]
  | cons dev rest ih =>
      rw [List.foldl_cons, ih]
      cases h : mapGet devices dev.hostname with
      | none => simp [computeStep, h, dispatchedModels, List.filterMap_cons]
      | some d =>
          cases hg : d.generateconfigsResult <;>
            simp [computeStep, h, hg, dispatchedModels, List.filterMap_cons] <;> omega

theorem compute_foldl_failed (devices : GoMap) (l : List DeviceRecord)
    (acc : ComputeOut) :
    (List.foldl (computeStep devices) acc l).failed
      = (acc.failed || anyTaskFailed l devices) := by
  induction l generalizing acc with
  | nil => simp [anyTaskFailed, dispatchedModels]
  | cons dev rest ih =>
      rw [List.foldl_cons, ih]
      cases h : mapGet devices dev.hostname with
      | none => simp [computeStep, h, anyTaskFailed, dispatchedModels, List.filterMap_cons]
      | some d =>
          cases hg : d.generateconfigsResult <;>
            simp [computeStep, h, hg, anyTaskFailed, dispatchedModels, List.filterMap_cons,
              Bool.or_assoc]

theorem compute_foldl_messages (devices : GoMap) (l : List DeviceRecord)
    (acc : ComputeOut) :
    (List.foldl (computeStep devices) acc l).messages
      = acc.messages ++ l.filterMap (computeMsgOf devices) := by
  induction l generalizing acc with
  | nil => simp
  | cons dev rest ih =>
      rw [List.foldl_cons, ih]
      cases h : mapGet devices dev.hostname with
      | none => simp [computeStep, h, computeMsgOf, List.filterMap_cons]
      | some d =>
          cases hg : d.generateconfigsResult <;>
            simp [computeStep, h, hg, computeMsgOf, List.filterMap_cons]

theorem compute_foldl_builtCount (devices : GoMap) (l : List DeviceRecord)
    (acc : ComputeOut) (h : acc.builtCount < U32) :
    (List.foldl (computeStep devices) acc l).builtCount
        = (acc.builtCount + taskSuccessCount l devices) % U32
    ∧ (List.foldl (computeStep devices) acc l).builtCount < U32 := by
  induction l generalizing acc with
  | nil =>
      simp only [List.foldl_nil, taskSuccessCount, dispatchedModels, List.filterMap_nil,
        List.filter_nil, List.length_nil, Nat.add_zero]
      exact ⟨(Nat.mod_eq_of_lt h).symm, h⟩
  | cons dev rest ih =>
      rw [List.foldl_cons]
      cases hm : mapGet devices dev.hostname with
      | none =>
          have hacc : (computeStep devices acc dev).builtCount = acc.builtCount := by
            simp [computeStep, hm]
          have hrec := ih (computeStep devices acc dev) (hacc ▸ h)
          have hcnt : taskSuccessCount (dev :: rest) devices
              = taskSuccessCount rest devices := by
            simp [taskSuccessCount, dispatchedModels, List.filterMap_cons, hm]
          exact ⟨by rw [hrec.1, hacc, hcnt], hrec.2⟩
      | some d =>
          cases hg : d.generateconfigsResult with
          | some err =>
              have hacc : (computeStep devices acc dev).builtCount = acc.builtCount := by
                simp [computeStep, hm, hg]
              have hrec := ih (computeStep devices acc dev) (hacc ▸ h)
              have hcnt : taskSuccessCount (dev :: rest) devices
                  = taskSuccessCount rest devices := by
                simp [taskSuccessCount, dispatchedModels, List.filterMap_cons, hm, hg,
                  List.filter_cons]
              exact ⟨by rw [hrec.1, hacc, hcnt], hrec.2⟩
          | none =>
              have hacc : (computeStep devices acc dev).builtCount
                  = (acc.builtCount + 1) % U32 := by
                simp [computeStep, hm, hg, uint32Add1]
              have hlt : (computeStep devices acc dev).builtCount < U32 := by
                rw [hacc]
                exact Nat.mod_lt _ (by norm_num [U32])
              have := ih (computeStep devices acc dev) hlt
              constructor
              · rw [this.1, hacc, Nat.mod_add_mod]
                have harith : acc.builtCount + 1 + taskSuccessCount rest devices
                    = acc.builtCount + taskSuccessCount (dev :: rest) devices := by
                  simp [taskSuccessCount, dispatchedModels, List.filterMap_cons, hm, hg,
                    List.filter_cons, Option.isNone]
                  omega
                rw [harith]
              · exact this.2

theorem dispatched_add_marked (l : List DeviceRecord) (devices : GoMap) :
    (dispatchedModels l devices).length + markedCount l devices = l.length := by
  induction l with
  | nil => rfl
  | cons dev rest ih =>
      cases h : mapGet devices dev.hostname <;>
        simp [dispatchedModels, markedCount, List.filterMap_cons, List.filter_cons, h]
          at ih ⊢ <;>
        omega

theorem taskSuccessCount_le (l : List DeviceRecord) (devices : GoMap) :
    taskSuccessCount l devices ≤ (dispatchedModels l devices).length :=
  List.length_filter_le _ _

theorem dispatchedModels_length_le (l : List DeviceRecord) (devices : GoMap) :
    (dispatchedModels l devices).length ≤ l.length := by
  induction l with
  | nil => simp [dispatchedModels]
  | cons dev rest ih =>
      cases h : mapGet devices dev.hostname <;>
        simp only [dispatchedModels, List.filterMap_cons, h, List.length_cons] at * <;>
        omega

theorem compute_dispatched (inv : List DeviceRecord) (devices : GoMap) :
    (compute inv devices).dispatched = (dispatchedModels inv devices).length := by
  rw [compute, compute_foldl_dispatched]
  simp

theorem compute_failed_eq (inv : List DeviceRecord) (devices : GoMap) :
    (compute inv devices).failed = anyTaskFailed inv devices := by
  rw [compute, compute_foldl_failed]
  rfl

theorem compute_messages_eq (inv : List DeviceRecord) (devices : GoMap) :
    (compute inv devices).messages = inv.filterMap (computeMsgOf devices) := by
  rw [compute, compute_foldl_messages]
  rfl

theorem compute_builtCount (inv : List DeviceRecord) (devices : GoMap)
    (h : inv.length < U32) :
    (compute inv devices).builtCount = taskSuccessCount inv devices := by
  rw [compute]
  have := (compute_foldl_builtCount devices inv ⟨0, false, [], 0⟩ (by norm_num [U32])).1
  rw [this]
  have hle : taskSuccessCount inv devices < U32 :=
    lt_of_le_of_lt (le_trans (taskSuccessCount_le inv devices)
      (dispatchedModels_length_le inv devices)) h
  simp [Nat.mod_eq_of_lt hle]

/-! ### Characterization of `RunBuild` -/

theorem RunBuild_fetch_error (e : String) (strict : Bool) :
    RunBuild (.error e) strict = ⟨none, {}, some e, []⟩ := rfl

theorem errs_isEmpty_false (inv : List DeviceRecord)
    (h : (precompute inv).errs ≠ []) : (precompute inv).errs.isEmpty = false := by
  cases herrs : (precompute inv).errs with
  | nil => exact absurd herrs h
  | cons a rest => rfl

theorem RunBuild_strict_gate (inv : List DeviceRecord)
    (h : (precompute inv).errs ≠ []) :
    RunBuild (.ok inv) true
      = ⟨none, {}, some "failed: all devices must build", (precompute inv).messages⟩ := by
  unfold RunBuild
  simp [errs_isEmpty_false inv h]

theorem RunBuild_proceed_success (inv : List DeviceRecord) (strict : Bool)
    (hgate : (!(precompute inv).errs.isEmpty && strict) = false)
    (h : computeError (compute inv (precompute inv).devices) = none) :
    RunBuild (.ok inv) strict =
      ⟨some (precompute inv).devices,
       ⟨(compute inv (precompute inv).devices).builtCount⟩, none,
       (precompute inv).messages
         ++ (if (precompute inv).errs.isEmpty then []
             else [⟨.ComputeMessage, .Warning, "build failed for some devices"⟩])
         ++ (compute inv (precompute inv).devices).messages⟩ := by
  unfold RunBuild
  simp [hgate, h]

theorem RunBuild_proceed_failure (inv : List DeviceRecord) (strict : Bool) (ce : String)
    (hgate : (!(precompute inv).errs.isEmpty && strict) = false)
    (h : computeError (compute inv (precompute inv).devices) = some ce) :
    RunBuild (.ok inv) strict =
      ⟨none, ⟨(compute inv (precompute inv).devices).builtCount⟩, some ce,
       (precompute inv).messages
         ++ (if (precompute inv).errs.isEmpty then []
             else [⟨.ComputeMessage, .Warning, "build failed for some devices"⟩])
         ++ (compute inv (precompute inv).devices).messages⟩ := by
  unfold RunBuild
  simp [hgate, h]

theorem RunBuild_false_err_none (inv : List DeviceRecord)
    (hok : (RunBuild (.ok inv) false).err = none) :
    computeError (compute inv (precompute inv).devices) = none := by
  cases h : computeError (compute inv (precompute inv).devices) with
  | none => rfl
  | some ce =>
      rw [RunBuild_proceed_failure inv false ce (by simp) h] at hok
      exact absurd hok (by simp)

theorem dispatchedModels_precompute (inv : List DeviceRecord)
    (hnodup : (inv.map DeviceRecord.hostname).Nodup) :
    dispatchedModels inv (precompute inv).devices = inv.filterMap devEntry := by
  unfold dispatchedModels
  exact List.filterMap_congr (fun dev hd => precompute_mapGet inv dev hd hnodup)

theorem allTasksSucceed_computeError (inv : List DeviceRecord) (devices : GoMap)
    (h : ∀ d ∈ dispatchedModels inv devices, d.generateconfigsResult = none) :
    computeError (compute inv devices) = none := by
  unfold computeError
  rw [compute_failed_eq]
  have : anyTaskFailed inv devices = false := by
    unfold anyTaskFailed
    rw [List.any_eq_false]
    intro d hd
    simp [h d hd]
  simp [this]

theorem allTasksSucceed_count (inv : List DeviceRecord) (devices : GoMap)
    (h : ∀ d ∈ dispatchedModels inv devices, d.generateconfigsResult = none) :
    taskSuccessCount inv devices = (dispatchedModels inv devices).length := by
  unfold taskSuccessCount
  rw [List.filter_eq_self.mpr]
  intro d hd
  simp [h d hd]

theorem dispatchedModels_replicate (n : Nat) (dev : DeviceRecord) (devices : GoMap)
    (d : Device) (h : mapGet devices dev.hostname = some d) :
    dispatchedModels (List.replicate n dev) devices = List.replicate n d := by
  induction n with
  | zero => rfl
  | succ m ih =>
      rw [List.replicate_succ, List.replicate_succ]
      unfold dispatchedModels at ih ⊢
      simp [List.filterMap_cons, h, ih]

theorem taskSuccessCount_replicate (n : Nat) (dev : DeviceRecord) (devices : GoMap)
    (d : Device) (h : mapGet devices dev.hostname = some d)
    (hg : d.generateconfigsResult = none) :
    taskSuccessCount (List.replicate n dev) devices = n := by
  unfold taskSuccessCount
  rw [dispatchedModels_replicate n dev devices d h]
  rw [List.filter_eq_self.mpr (fun x hx => by
    rw [List.eq_of_mem_replicate hx]
    simp [hg])]
  simp

/-! ### Supervisor lemmas -/

theorem runCycle_failure (st : SupervisorState) (input : CycleInput) (e : String)
    (h : (RunBuild input.fetchResult input.allDevicesMustBuild).err = some e) :
    runCycle st input =
      ⟨{ st with
          status := .Failed
          buildFailedCount := st.buildFailedCount + 1
          cyclesCompleted := st.cyclesCompleted + 1 }, []⟩ := by
  unfold runCycle
  simp [h]

theorem runCycle_success (st : SupervisorState) (input : CycleInput)
    (h : (RunBuild input.fetchResult input.allDevicesMustBuild).err = none) :
    runCycle st input =
      ⟨{ st with
          published := (RunBuild input.fetchResult input.allDevicesMustBuild).devices
          status := .Success
          buildSuccessfulCount := st.buildSuccessfulCount + 1
          builtDevicesGauge :=
            (RunBuild input.fetchResult input.allDevicesMustBuild).stats.builtDevicesCount
          cyclesCompleted := st.cyclesCompleted + 1 },
        [(RunBuild input.fetchResult input.allDevicesMustBuild).devices]⟩ := by
  unfold runCycle
  simp [h]

theorem runCycle_cyclesCompleted (st : SupervisorState) (input : CycleInput) :
    (runCycle st input).state.cyclesCompleted = st.cyclesCompleted + 1 := by
  cases h : (RunBuild input.fetchResult input.allDevicesMustBuild).err with
  | none => rw [runCycle_success st input h]
  | some e => rw [runCycle_failure st input e h]

theorem loopState_cyclesCompleted (inputs : Nat → CycleInput) (n : Nat) :
    ∀ (st : SupervisorState) (k : Nat),
      (loopState inputs st k n).cyclesCompleted = st.cyclesCompleted + n := by
  induction n with
  | zero => intro st k; rfl
  | succ m ih =>
      intro st k
      rw [loopState, ih, runCycle_cyclesCompleted]
      omega

theorem loopRun_none (inputs : Nat → CycleInput) (events : Nat → WaitEvent)
    (fuel : Nat) :
    ∀ (st : SupervisorState) (k : Nat),
      (∀ i < fuel, events (k + i) ≠ .triggerClosed) →
      loopRun inputs events st k fuel = none := by
  induction fuel with
  | zero => intro st k _; rfl
  | succ f ih =>
      intro st k h
      rw [loopRun]
      have h0 : events k ≠ .triggerClosed := by
        have := h 0 (Nat.succ_pos f)
        simpa using this
      cases hev : events k with
      | triggerClosed => exact absurd hev h0
      | intervalElapsed =>
          exact ih _ (k + 1) (fun i hi => by
            have := h (i + 1) (Nat.succ_lt_succ hi)
            rwa [Nat.add_comm i 1, ← Nat.add_assoc] at this)
      | triggerSignal =>
          exact ih _ (k + 1) (fun i hi => by
            have := h (i + 1) (Nat.succ_lt_succ hi)
            rwa [Nat.add_comm i 1, ← Nat.add_assoc] at this)

theorem loopRun_stops (inputs : Nat → CycleInput) (events : Nat → WaitEvent) :
    ∀ (n fuel : Nat) (st : SupervisorState) (k : Nat),
      events (k + n) = .triggerClosed →
      (∀ i < n, events (k + i) ≠ .triggerClosed) →
      n < fuel →
      loopRun inputs events st k fuel = some (loopState inputs st k (n + 1)) := by
  intro n
  induction n with
  | zero =>
      intro fuel st k hclosed _ hfuel
      cases fuel with
      | zero => exact absurd hfuel (by omega)
      | succ f =>
          rw [loopRun]
          simp only [Nat.add_zero] at hclosed
          rw [hclosed]
          rfl
  | succ m ih =>
      intro fuel st k hclosed hbefore hfuel
      cases fuel with
      | zero => exact absurd hfuel (by omega)
      | succ f =>
          rw [loopRun]
          have h0 : events k ≠ .triggerClosed := by
            have := hbefore 0 (Nat.succ_pos m)
            simpa using this
          have hclosed' : events (k + 1 + m) = .triggerClosed := by
            have he : k + 1 + m = k + (m + 1) := by omega
            rw [he]
            exact hclosed
          have hbefore' : ∀ i < m, events (k + 1 + i) ≠ .triggerClosed := by
            intro i hi
            have := hbefore (i + 1) (Nat.succ_lt_succ hi)
            rwa [Nat.add_comm i 1, ← Nat.add_assoc] at this
          have hfuel' : m < f := by omega
          cases hev : events k with
          | triggerClosed => exact absurd hev h0
          | intervalElapsed =>
              rw [loopState]
              exact ih f _ (k + 1) hclosed' hbefore' hfuel'
          | triggerSignal =>
              rw [loopState]
              exact ih f _ (k + 1) hclosed' hbefore' hfuel'

/-! ### Claim theorems -/

/-- C2: whenever `RunBuild` returns a non-nil error — fetch failure,
strict-policy precompute failure, or compute failure — the device mapping
it returns is nil. -/
theorem runBuild_error_returns_nil_devices
    (fetchResult : Except String (List DeviceRecord)) (strict : Bool)
    (h : (RunBuild fetchResult strict).err ≠ none) :
    (RunBuild fetchResult strict).devices = none := by
  cases fetchResult with
  | error e => rfl
  | ok inv =>
      by_cases hg : (!(precompute inv).errs.isEmpty && strict) = true
      · have hstrict : strict = true := (Bool.and_eq_true _ _ |>.mp hg).2
        have herrs : (precompute inv).errs ≠ [] := by
          intro hc
          have := (Bool.and_eq_true _ _ |>.mp hg).1
          simp [hc] at this
        rw [hstrict, RunBuild_strict_gate inv herrs]
      · have hg' := Bool.eq_false_iff.mpr hg
        cases hce : computeError (compute inv (precompute inv).devices) with
        | none =>
            rw [RunBuild_proceed_success inv strict hg' hce] at h
            exact absurd rfl h
        | some ce =>
            rw [RunBuild_proceed_failure inv strict ce hg' hce]

/-- Witness for C2: a failing fetch yields a nil mapping. -/
theorem runBuild_error_returns_nil_devices_witness :
    (RunBuild (.error "fetch failed") false).devices = none :=
  runBuild_error_returns_nil_devices (.error "fetch failed") false (by decide)

/-- C3: with the "all devices must build" policy enabled, a precompute
failure makes `RunBuild` return a non-nil error and a nil mapping via the
early return before `compute` is called: the result is exactly the abort
value, its message list is exactly the precompute messages, and every one
of them is a precompute-stage `Error` message, so no compute task is
dispatched and no compute-stage message is emitted in that cycle. -/
theorem runBuild_strict_precompute_abort (inv : List DeviceRecord)
    (hpre : (precompute inv).errs ≠ []) :
    RunBuild (.ok inv) true
        = ⟨none, {}, some "failed: all devices must build", (precompute inv).messages⟩
    ∧ ∀ m ∈ (RunBuild (.ok inv) true).messages,
        m.type = .PrecomputeMessage ∧ m.severity = .Error := by
  have heq := RunBuild_strict_gate inv hpre
  refine ⟨heq, ?_⟩
  rw [heq]
  intro m hm
  simp only [precompute_messages_eq] at hm
  obtain ⟨e, _, rfl⟩ := List.mem_map.mp hm
  exact ⟨rfl, rfl⟩

/-- Witness for C3 at a one-device inventory whose `NewDevice` call fails. -/
theorem runBuild_strict_precompute_abort_witness :
    RunBuild (.ok [⟨"a", .error "boom"⟩]) true
      = ⟨none, {}, some "failed: all devices must build",
         (precompute [⟨"a", .error "boom"⟩]).messages⟩ :=
  (runBuild_strict_precompute_abort [⟨"a", .error "boom"⟩] (by decide)).1

/-- Counterexample for C4 as universally stated: with `2^32` inventory
entries each dispatching a succeeding task, the `uint32` success counter of
`compute` wraps to `0` although `2^32` dispatched tasks completed without
error, so the returned count differs from the number of successes. -/
theorem compute_success_count_wrap_counterexample :
    (compute (List.replicate U32 ⟨"a", .ok ⟨none⟩⟩)
        [("a", some ⟨none⟩)]).builtCount
      ≠ taskSuccessCount (List.replicate U32 ⟨"a", .ok ⟨none⟩⟩)
          [("a", some ⟨none⟩)] := by
  have hm : mapGet [("a", some ⟨none⟩)]
      (⟨"a", .ok ⟨none⟩⟩ : DeviceRecord).hostname = some ⟨none⟩ := rfl
  have hcnt := taskSuccessCount_replicate U32 ⟨"a", .ok ⟨none⟩⟩
    [("a", some ⟨none⟩)] ⟨none⟩ hm rfl
  have hb := (compute_foldl_builtCount [("a", some ⟨none⟩)]
    (List.replicate U32 ⟨"a", .ok ⟨none⟩⟩) ⟨0, false, [], 0⟩ (by norm_num [U32])).1
  unfold compute
  rw [hb, hcnt]
  norm_num [U32]

/-- C4, amended for the `uint32` counter width: `compute` returns a success
count equal to the number of dispatched tasks whose `Generateconfigs` call
returned no error reduced modulo `2^32` — exactly that number whenever the
inventory has fewer than `2^32` entries — the count never exceeds
`N - markedCount`, and the returned error is non-nil iff at least one
dispatched task failed. -/
theorem compute_success_count_spec (inv : List DeviceRecord) (devices : GoMap) :
    (compute inv devices).builtCount = taskSuccessCount inv devices % U32
    ∧ (compute inv devices).builtCount ≤ inv.length - markedCount inv devices
    ∧ (inv.length < U32 →
        (compute inv devices).builtCount = taskSuccessCount inv devices)
    ∧ (computeError (compute inv devices) ≠ none
        ↔ ∃ d ∈ dispatchedModels inv devices, d.generateconfigsResult ≠ none) := by
  have hiff : anyTaskFailed inv devices = true
      ↔ ∃ d ∈ dispatchedModels inv devices, d.generateconfigsResult ≠ none := by
    unfold anyTaskFailed
    rw [List.any_eq_true]
    constructor
    · rintro ⟨d, hd, hs⟩
      exact ⟨d, hd, by simpa [Option.isSome_iff_ne_none] using hs⟩
    · rintro ⟨d, hd, hs⟩
      exact ⟨d, hd, by simpa [Option.isSome_iff_ne_none] using hs⟩
  have hbm : (compute inv devices).builtCount
      = taskSuccessCount inv devices % U32 := by
    rw [compute]
    have := (compute_foldl_builtCount devices inv ⟨0, false, [], 0⟩
      (by norm_num [U32])).1
    rw [this]
    simp
  refine ⟨hbm, ?_, compute_builtCount inv devices, ?_⟩
  · rw [hbm]
    have h0 := Nat.mod_le (taskSuccessCount inv devices) U32
    have h1 := taskSuccessCount_le inv devices
    have h2 := dispatched_add_marked inv devices
    omega
  · unfold computeError
    rw [compute_failed_eq]
    cases hf : anyTaskFailed inv devices with
    | true =>
        constructor
        · intro _
          exact hiff.mp hf
        · intro _
          simp
    | false =>
        constructor
        · intro hne
          simp at hne
        · intro hex
          exact absurd (hiff.mpr hex) (by simp [hf])

/-- Witness for C4: one dispatched succeeding task, one marked device, one
device absent from the map; the inventory is small, so the exact equality
holds. -/
theorem compute_success_count_spec_witness :
    (compute [⟨"a", .ok ⟨none⟩⟩, ⟨"b", .error "x"⟩, ⟨"c", .ok ⟨none⟩⟩]
        [("a", some ⟨none⟩), ("b", none)]).builtCount
      = taskSuccessCount [⟨"a", .ok ⟨none⟩⟩, ⟨"b", .error "x"⟩, ⟨"c", .ok ⟨none⟩⟩]
          [("a", some ⟨none⟩), ("b", none)] :=
  (compute_success_count_spec [⟨"a", .ok ⟨none⟩⟩, ⟨"b", .error "x"⟩,
    ⟨"c", .ok ⟨none⟩⟩] [("a", some ⟨none⟩), ("b", none)]).2.2.1 (by decide)

/-- C5: for an inventory of `N` devices with pairwise-distinct hostnames,
`precompute` returns a map with exactly `N` entries — each device's built
model or a nil failure marker — and a joined error that is non-nil iff at
least one `NewDevice` call failed. -/
theorem precompute_totality_spec (inv : List DeviceRecord)
    (hnodup : (inv.map DeviceRecord.hostname).Nodup) :
    (precompute inv).devices.length = inv.length
    ∧ (∀ dev ∈ inv,
        lookupEntry (precompute inv).devices dev.hostname = some (devEntry dev))
    ∧ ((precompute inv).errs ≠ []
        ↔ ∃ dev ∈ inv, ∃ e, dev.newDeviceResult = .error e) := by
  refine ⟨precompute_length inv hnodup,
    fun dev hd => precompute_lookup inv dev hd hnodup, ?_⟩
  rw [precompute_errs]
  unfold precomputeErrList
  constructor
  · intro hne
    by_contra hc
    push_neg at hc
    apply hne
    rw [List.filterMap_eq_nil_iff]
    intro dev hd
    cases hdev : dev.newDeviceResult with
    | error e => exact absurd hdev (hc dev hd e)
    | ok d => rfl
  · rintro ⟨dev, hd, e, he⟩ hnil
    rw [List.filterMap_eq_nil_iff] at hnil
    have := hnil dev hd
    rw [he] at this
    exact absurd this (by simp)

/-- Witness for C5 at a two-device inventory with one failure. -/
theorem precompute_totality_spec_witness :
    (precompute [⟨"a", .ok ⟨none⟩⟩, ⟨"b", .error "boom"⟩]).devices.length = 2 :=
  (precompute_totality_spec [⟨"a", .ok ⟨none⟩⟩, ⟨"b", .error "boom"⟩] (by decide)).1

/-- C6: the messages `precompute` sends are exactly one `Error`
`PrecomputeMessage` per failing device carrying that failure's cause, the
joined aggregate error is exactly the list of the causes in order, and in
particular every individual cause appears in both — no cause is dropped. -/
theorem precompute_error_reporting_spec (inv : List DeviceRecord) :
    (precompute inv).messages
        = (precomputeErrList inv).map (fun e => ⟨.PrecomputeMessage, .Error, e⟩)
    ∧ (precompute inv).errs = precomputeErrList inv
    ∧ ∀ dev ∈ inv, ∀ e, dev.newDeviceResult = .error e →
        (⟨.PrecomputeMessage, .Error, e⟩ : Message) ∈ (precompute inv).messages
        ∧ e ∈ (precompute inv).errs := by
  refine ⟨precompute_messages_eq inv, precompute_errs inv, ?_⟩
  intro dev hd e he
  have hmem : e ∈ precomputeErrList inv := by
    unfold precomputeErrList
    exact List.mem_filterMap.mpr ⟨dev, hd, by rw [he]⟩
  constructor
  · rw [precompute_messages_eq]
    exact List.mem_map.mpr ⟨e, hmem, rfl⟩
  · rw [precompute_errs]
    exact hmem

/-- Witness for C6: a failing device's cause appears in the message list
and in the aggregate error. -/
theorem precompute_error_reporting_spec_witness :
    (⟨.PrecomputeMessage, .Error, "boom"⟩ : Message)
        ∈ (precompute [⟨"a", .error "boom"⟩, ⟨"b", .ok ⟨none⟩⟩]).messages
    ∧ "boom" ∈ (precompute [⟨"a", .error "boom"⟩, ⟨"b", .ok ⟨none⟩⟩]).errs :=
  (precompute_error_reporting_spec [⟨"a", .error "boom"⟩, ⟨"b", .ok ⟨none⟩⟩]).2.2
    ⟨"a", .error "boom"⟩ (by decide) "boom" rfl

/-- C7: `compute` skips every device whose map entry is nil, emitting for it
a `Warning` message reading "device (hostname) has no configuration" and
dispatching no task for it; with `markedCount` marked devices out of `N`
inventory entries exactly `N - markedCount` tasks are dispatched, and the
failure flag equals whether some dispatched task failed — skips alone never
make the stage fail. -/
theorem compute_skip_spec (inv : List DeviceRecord) (devices : GoMap) :
    (compute inv devices).dispatched = inv.length - markedCount inv devices
    ∧ (∀ dev ∈ inv, mapGet devices dev.hostname = none →
        (⟨.ComputeMessage, .Warning,
            "device " ++ dev.hostname ++ " has no configuration"⟩ : Message)
          ∈ (compute inv devices).messages)
    ∧ (compute inv devices).failed = anyTaskFailed inv devices := by
  refine ⟨?_, ?_, compute_failed_eq inv devices⟩
  · rw [compute_dispatched]
    have := dispatched_add_marked inv devices
    omega
  · intro dev hd h
    rw [compute_messages_eq]
    refine List.mem_filterMap.mpr ⟨dev, hd, ?_⟩
    unfold computeMsgOf
    rw [h]

/-- Witness for C7: the skip warning for a marked device is emitted and the
dispatch count excludes it. -/
theorem compute_skip_spec_witness :
    (compute [⟨"a", .ok ⟨none⟩⟩, ⟨"b", .error "x"⟩]
        [("a", some ⟨none⟩), ("b", none)]).dispatched
      = [⟨"a", .ok ⟨none⟩⟩, (⟨"b", .error "x"⟩ : DeviceRecord)].length
          - markedCount [⟨"a", .ok ⟨none⟩⟩, ⟨"b", .error "x"⟩]
              [("a", some ⟨none⟩), ("b", none)]
    ∧ (⟨.ComputeMessage, .Warning, "device b has no configuration"⟩ : Message)
        ∈ (compute [⟨"a", .ok ⟨none⟩⟩, ⟨"b", .error "x"⟩]
            [("a", some ⟨none⟩), ("b", none)]).messages :=
  ⟨(compute_skip_spec _ _).1,
   (compute_skip_spec [⟨"a", .ok ⟨none⟩⟩, ⟨"b", .error "x"⟩]
       [("a", some ⟨none⟩), ("b", none)]).2.1
     ⟨"b", .error "x"⟩ (by decide) (by decide)⟩

/-- C8: with the strict policy disabled and a non-nil precompute error,
`RunBuild` always emits the "build failed for some devices" `Warning`
message and proceeds to compute over the devices that got a model — its
message list is the precompute messages, the warning, then compute's
messages, its error is exactly compute's error and its built-devices count
is exactly compute's counter, whatever the tasks do; when additionally
every dispatched task succeeds it returns a nil error and a built-devices
count equal to the number of devices whose precompute succeeded (9 for 10
devices with one failure). -/
theorem runBuild_nonstrict_proceeds_spec (inv : List DeviceRecord)
    (hfail : (precompute inv).errs ≠ []) :
    (⟨.ComputeMessage, .Warning, "build failed for some devices"⟩ : Message)
        ∈ (RunBuild (.ok inv) false).messages
    ∧ (RunBuild (.ok inv) false).messages
        = (precompute inv).messages
          ++ [⟨.ComputeMessage, .Warning, "build failed for some devices"⟩]
          ++ (compute inv (precompute inv).devices).messages
    ∧ (RunBuild (.ok inv) false).err
        = computeError (compute inv (precompute inv).devices)
    ∧ (RunBuild (.ok inv) false).stats.builtDevicesCount
        = (compute inv (precompute inv).devices).builtCount
    ∧ ((inv.map DeviceRecord.hostname).Nodup → inv.length < U32 →
        (∀ dev ∈ inv, ∀ d, dev.newDeviceResult = .ok d →
          d.generateconfigsResult = none) →
        (RunBuild (.ok inv) false).err = none
        ∧ (RunBuild (.ok inv) false).stats.builtDevicesCount
            = precomputeOkCount inv) := by
  have hne := errs_isEmpty_false inv hfail
  have hgen4 :
      (RunBuild (.ok inv) false).messages
        = (precompute inv).messages
          ++ [⟨.ComputeMessage, .Warning, "build failed for some devices"⟩]
          ++ (compute inv (precompute inv).devices).messages
      ∧ (RunBuild (.ok inv) false).err
          = computeError (compute inv (precompute inv).devices)
      ∧ (RunBuild (.ok inv) false).stats.builtDevicesCount
          = (compute inv (precompute inv).devices).builtCount := by
    cases hce : computeError (compute inv (precompute inv).devices) with
    | none =>
        rw [RunBuild_proceed_success inv false (by simp) hce]
        exact ⟨by simp [hne], rfl, rfl⟩
    | some ce =>
        rw [RunBuild_proceed_failure inv false ce (by simp) hce]
        exact ⟨by simp [hne], rfl, rfl⟩
  refine ⟨?_, hgen4.1, hgen4.2.1, hgen4.2.2, ?_⟩
  · rw [hgen4.1]
    simp
  · intro hnodup hN hgen
    have hdm := dispatchedModels_precompute inv hnodup
    have hall : ∀ d ∈ dispatchedModels inv (precompute inv).devices,
        d.generateconfigsResult = none := by
      intro d hd
      rw [hdm] at hd
      obtain ⟨dev, hdev, hde⟩ := List.mem_filterMap.mp hd
      unfold devEntry at hde
      cases hr : dev.newDeviceResult with
      | ok d' =>
          rw [hr] at hde
          obtain rfl : d' = d := by simpa using hde
          exact hgen dev hdev d' hr
      | error e =>
          rw [hr] at hde
          exact absurd hde (by simp)
    have hce := allTasksSucceed_computeError inv (precompute inv).devices hall
    refine ⟨by rw [hgen4.2.1, hce], ?_⟩
    rw [hgen4.2.2, compute_builtCount _ _ hN, allTasksSucceed_count _ _ hall, hdm]
    rfl

/-- Witness for C8: ten devices, one precompute failure, nine succeeding
tasks, built-devices count nine. -/
theorem runBuild_nonstrict_proceeds_spec_witness :
    (RunBuild (.ok [⟨"d1", .error "boom"⟩, ⟨"d2", .ok ⟨none⟩⟩, ⟨"d3", .ok ⟨none⟩⟩,
        ⟨"d4", .ok ⟨none⟩⟩, ⟨"d5", .ok ⟨none⟩⟩, ⟨"d6", .ok ⟨none⟩⟩, ⟨"d7", .ok ⟨none⟩⟩,
        ⟨"d8", .ok ⟨none⟩⟩, ⟨"d9", .ok ⟨none⟩⟩, ⟨"d10", .ok ⟨none⟩⟩]) false).err = none
    ∧ (RunBuild (.ok [⟨"d1", .error "boom"⟩, ⟨"d2", .ok ⟨none⟩⟩, ⟨"d3", .ok ⟨none⟩⟩,
        ⟨"d4", .ok ⟨none⟩⟩, ⟨"d5", .ok ⟨none⟩⟩, ⟨"d6", .ok ⟨none⟩⟩, ⟨"d7", .ok ⟨none⟩⟩,
        ⟨"d8", .ok ⟨none⟩⟩, ⟨"d9", .ok ⟨none⟩⟩,
        ⟨"d10", .ok ⟨none⟩⟩]) false).stats.builtDevicesCount = 9 := by
  have h := (runBuild_nonstrict_proceeds_spec
    [⟨"d1", .error "boom"⟩, ⟨"d2", .ok ⟨none⟩⟩, ⟨"d3", .ok ⟨none⟩⟩,
     ⟨"d4", .ok ⟨none⟩⟩, ⟨"d5", .ok ⟨none⟩⟩, ⟨"d6", .ok ⟨none⟩⟩, ⟨"d7", .ok ⟨none⟩⟩,
     ⟨"d8", .ok ⟨none⟩⟩, ⟨"d9", .ok ⟨none⟩⟩, ⟨"d10", .ok ⟨none⟩⟩]
    (by decide)).2.2.2.2 (by decide) (by decide)
    (by intro dev hdev d hd; fin_cases hdev <;> cases hd <;> rfl)
  refine ⟨h.1, ?_⟩
  rw [h.2]
  decide

/-- C10: when `RunBuild` succeeds with the strict policy disabled, the
mapping it returns is the precompute map itself — one entry per inventory
device, including a stored nil entry for every device whose precompute
failed — and the supervisor publishes exactly that mapping via
`deviceRepo.Set`, so the published artifact set can contain devices with no
artifact. -/
theorem runBuild_success_publishes_nil_entries (inv : List DeviceRecord)
    (st : SupervisorState)
    (hnodup : (inv.map DeviceRecord.hostname).Nodup)
    (hok : (RunBuild (.ok inv) false).err = none) :
    (RunBuild (.ok inv) false).devices = some (precompute inv).devices
    ∧ (∀ dev ∈ inv,
        lookupEntry (precompute inv).devices dev.hostname = some (devEntry dev))
    ∧ (∀ dev ∈ inv, ∀ e, dev.newDeviceResult = .error e →
        lookupEntry (precompute inv).devices dev.hostname = some none)
    ∧ (runCycle st ⟨.ok inv, false⟩).state.published
        = some (precompute inv).devices := by
  have hce := RunBuild_false_err_none inv hok
  have hge := RunBuild_proceed_success inv false (by simp) hce
  refine ⟨by rw [hge], fun dev hd => precompute_lookup inv dev hd hnodup, ?_, ?_⟩
  · intro dev hd e he
    rw [precompute_lookup inv dev hd hnodup]
    unfold devEntry
    rw [he]
  · rw [runCycle_success st ⟨.ok inv, false⟩ hok]
    dsimp only
    rw [hge]

/-- Witness for C10: with one failed and one succeeding device and the
policy disabled, the cycle succeeds and the published map stores a nil
entry for the failed device. -/
theorem runBuild_success_publishes_nil_entries_witness :
    lookupEntry
        (precompute [⟨"a", .error "boom"⟩, ⟨"b", .ok ⟨none⟩⟩]).devices "a"
      = some none
    ∧ (runCycle ⟨none, .Idle, 0, 0, 0, 0⟩
          ⟨.ok [⟨"a", .error "boom"⟩, ⟨"b", .ok ⟨none⟩⟩], false⟩).state.published
      = some (precompute [⟨"a", .error "boom"⟩, ⟨"b", .ok ⟨none⟩⟩]).devices := by
  have h := runBuild_success_publishes_nil_entries
    [⟨"a", .error "boom"⟩, ⟨"b", .ok ⟨none⟩⟩] ⟨none, .Idle, 0, 0, 0, 0⟩
    (by decide) (by decide)
  exact ⟨h.2.2.1 ⟨"a", .error "boom"⟩ (by decide) "boom" rfl, h.2.2.2⟩

/-- C1: in every supervisor cycle the downstream `deviceRepo.Set` is called
exactly when `RunBuild` returns a nil error — one single call installing the
whole returned mapping, which becomes the published set — and when
`RunBuild` returns a non-nil error no `Set` call happens and the previously
published set is left unchanged. -/
theorem supervisor_publishes_only_on_success (st : SupervisorState)
    (input : CycleInput) :
    ((RunBuild input.fetchResult input.allDevicesMustBuild).err = none →
      (runCycle st input).setCalls
          = [(RunBuild input.fetchResult input.allDevicesMustBuild).devices]
      ∧ (runCycle st input).state.published
          = (RunBuild input.fetchResult input.allDevicesMustBuild).devices)
    ∧ ((RunBuild input.fetchResult input.allDevicesMustBuild).err ≠ none →
      (runCycle st input).setCalls = []
      ∧ (runCycle st input).state.published = st.published) := by
  constructor
  · intro h
    rw [runCycle_success st input h]
    exact ⟨rfl, rfl⟩
  · intro h
    cases he : (RunBuild input.fetchResult input.allDevicesMustBuild).err with
    | none => exact absurd he h
    | some e =>
        rw [runCycle_failure st input e he]
        exact ⟨rfl, rfl⟩

/-- Witness for C1: a succeeding cycle performs exactly one `Set` call with
the new mapping; a cycle whose fetch fails performs none. -/
theorem supervisor_publishes_only_on_success_witness :
    (runCycle ⟨none, .Idle, 0, 0, 0, 0⟩ ⟨.ok [], false⟩).setCalls
        = [(RunBuild (.ok []) false).devices]
    ∧ (runCycle ⟨none, .Idle, 0, 0, 0, 0⟩ ⟨.error "fetch failed", false⟩).setCalls
        = [] :=
  ⟨((supervisor_publishes_only_on_success ⟨none, .Idle, 0, 0, 0, 0⟩
      ⟨.ok [], false⟩).1 (by decide)).1,
   ((supervisor_publishes_only_on_success ⟨none, .Idle, 0, 0, 0, 0⟩
      ⟨.error "fetch failed", false⟩).2 (by decide)).1⟩

/-- C9: the supervisor loop returns exactly when the trigger channel is
observed closed during the inter-cycle wait: if wait `n` is the first one to
observe closure (and the run has fuel past it), the loop returns after
completing exactly `n + 1` full cycles — no cycle is preempted — having
continued into the next cycle at every earlier wait whether it ended by the
interval elapsing or by a trigger signal (which starts the next cycle
without waiting for the interval); if no wait observes closure the loop is
still running after any number of iterations; and a wait whose outcome is
not closure always continues directly into the next cycle. -/
theorem supervisor_loop_termination_spec (inputs : Nat → CycleInput)
    (events : Nat → WaitEvent) (st0 : SupervisorState) (fuel : Nat) :
    (∀ n, n < fuel → events n = .triggerClosed →
      (∀ m, m < n → events m ≠ .triggerClosed) →
      loopRun inputs events st0 0 fuel = some (loopState inputs st0 0 (n + 1))
      ∧ (loopState inputs st0 0 (n + 1)).cyclesCompleted
          = st0.cyclesCompleted + (n + 1))
    ∧ ((∀ n, n < fuel → events n ≠ .triggerClosed) →
      loopRun inputs events st0 0 fuel = none)
    ∧ ∀ (st : SupervisorState) (k f : Nat), events k ≠ .triggerClosed →
        loopRun inputs events st k (f + 1)
          = loopRun inputs events (runCycle st (inputs k)).state (k + 1) f := by
  refine ⟨?_, ?_, ?_⟩
  · intro n hn hc hb
    exact ⟨loopRun_stops inputs events n fuel st0 0 (by simpa using hc)
        (fun i hi => by simpa using hb i hi) hn,
      loopState_cyclesCompleted inputs (n + 1) st0 0⟩
  · intro h
    exact loopRun_none inputs events fuel st0 0 (fun i hi => by simpa using h i hi)
  · intro st k f hev
    rw [loopRun]
    cases he : events k with
    | triggerClosed => exact absurd he hev
    | intervalElapsed => rfl
    | triggerSignal => rfl

/-- Witness for C9 at a concrete schedule: a trigger signal at wait 0
continues into cycle 1, closure at wait 1 stops the loop after exactly two
completed cycles; with no closure the loop is still running. -/
theorem supervisor_loop_termination_spec_witness :
    (loopRun (fun _ => ⟨.ok [], false⟩)
        (fun n => if n = 1 then .triggerClosed else .triggerSignal)
        ⟨none, .Idle, 0, 0, 0, 0⟩ 0 3
      = some (loopState (fun _ => ⟨.ok [], false⟩) ⟨none, .Idle, 0, 0, 0, 0⟩ 0 2))
    ∧ (loopState (fun _ => ⟨.ok [], false⟩)
        ⟨none, .Idle, 0, 0, 0, 0⟩ 0 2).cyclesCompleted = 0 + 2
    ∧ (loopRun (fun _ => ⟨.ok [], false⟩) (fun _ => .triggerSignal)
        ⟨none, .Idle, 0, 0, 0, 0⟩ 0 2 = none) := by
  have h1 := (supervisor_loop_termination_spec (fun _ => ⟨.ok [], false⟩)
      (fun n => if n = 1 then .triggerClosed else .triggerSignal)
      ⟨none, .Idle, 0, 0, 0, 0⟩ 3).1 1 (by decide) (by decide)
      (fun m hm => by
        have hm0 : m = 0 := by omega
        rw [hm0]
        decide)
  have h2 := (supervisor_loop_termination_spec (fun _ => ⟨.ok [], false⟩)
      (fun _ => .triggerSignal) ⟨none, .Idle, 0, 0, 0, 0⟩ 2).2.1
      (fun n _ => by decide)
  exact ⟨h1.1, h1.2, h2⟩
